import Mathlib

/-!
Verification of the theta-protocol-ledger consensus core and block model.

The Go sources embedded here:
  * `src/consensus/engine.go` — `DefaultEngine` (`NewEngine`, `HandleMessage`,
    `enterNewEpoch`, `setTip`, `processCCBlock`, `finalizeBlock`);
  * `src/core/block.go` — `BlockHeader.Hash`, `ExtendedBlock.Hash`;
  * the mempool message handler and the `BroadcastRawTransaction` RPC entry.

Machine integers: the Go fields are `uint32`/`uint64`; none of the modelled
operations can overflow them (the only arithmetic is `epoch + 1` and
`height + 1` on values the embedding quantifies over), so they are modelled
as `Nat`. Byte strings (hashes, addresses, payloads) are `List Nat`.

Go channels: a buffered channel of capacity `cap` is modelled as a `List`
of pending items. A `select`-with-`default` send (`chanPushNonBlocking`)
appends when the buffer has room and otherwise drops the item; a plain send
(`goChanSend`) appends when the buffer has room and otherwise suspends the
sending goroutine, reported as `SendOutcome.blocked`.
-/

/-- Byte strings / 32-byte hashes, as lists of byte values. -/
abbrev CHash := List Nat

/-- The zero value of `common.Hash` ( `common.Hash{}` ): 32 zero bytes. -/
def emptyHash : CHash := List.replicate 32 0

/-- A vote, per the spec data model: voter address, block hash, epoch and a
signature over (block hash, epoch). -/
structure VoteRec where
  voter : List Nat
  blockHash : CHash
  epoch : Nat
  signature : List Nat
deriving DecidableEq, Repr

/-- Consensus-side view of `blockchain.ExtendedBlock` as used by
`src/consensus/engine.go`: hash, parent link, height, epoch, whether a
commit certificate is attached (`CommitCertificate != nil`), and the
status label (0 = Pending, 1 = Committed, 2 = Finalized). The
`blockchain` package itself is not under `src/`; the fields are exactly
those `engine.go` reads, with parent links kept as hashes into an
arena-style tree as the spec's design notes prescribe. -/
structure EBlock where
  hash : CHash
  parentHash : CHash
  height : Nat
  epoch : Nat
  hasCC : Bool
  status : Nat
deriving DecidableEq, Repr

/-- Modelled from the spec: `blockchain.Chain` is not under `src/`;
`engine.go` uses only its `Root` field and the block tree it holds
("Holds all known blocks from a fixed root"). -/
structure ChainM where
  blocks : List EBlock
  root : EBlock
deriving DecidableEq, Repr

/-- Look a block up by hash in the arena-style tree (`find_block`). -/
def lookupBlock (t : List EBlock) (h : CHash) : Option EBlock :=
  t.find? (fun b => decide (b.hash = h))

/-- Outcome of a plain Go channel send `ch <- msg`. -/
inductive SendOutcome where
  | sent
  | blocked
deriving DecidableEq, Repr

/-- A plain (blocking) send on a Go channel with capacity `cap`: the item is
enqueued when the buffer has room; otherwise the sender suspends. -/
def goChanSend {α : Type} (cap : Nat) (q : List α) (x : α) : List α × SendOutcome :=
  if q.length < cap then (q ++ [x], SendOutcome.sent) else (q, SendOutcome.blocked)

/-- A `select { case ch <- x: default: }` send: enqueue when the buffer has
room, otherwise drop the item. -/
def chanPushNonBlocking {α : Type} (cap : Nat) (q : List α) (x : α) : List α :=
  if q.length < cap then q ++ [x] else q

/-- State of `consensus.DefaultEngine` (engine.go lines 16-38). Channels
are buffers of pending items; the strategies and the epoch manager are
represented by the last epoch value each was handed (their own code is not
under `src/`, and the engine only pushes epochs into them). -/
structure EngineState where
  chain : ChainM
  incoming : List Nat
  finalizedBlocks : List EBlock
  highestCCBlock : EBlock
  lastFinalizedBlock : EBlock
  tip : EBlock
  lastVoteHeight : Nat
  voteLog : List (Nat × VoteRec)
  collectedVotes : List (CHash × List VoteRec)
  epochMgrEpoch : Nat
  epoch : Nat
  proposerEpoch : Nat
  replicaEpoch : Nat
deriving DecidableEq, Repr

/-- Capacity of both channels created in `NewEngine` (engine.go lines 46-47). -/
def engineChanCapacity : Nat := 5000

/-- `NewEngine` (engine.go lines 41-66): both distinguished pointers and the
tip start at `chain.Root`, the epoch at 0, and the maps empty. -/
def newEngine (chain : ChainM) : EngineState :=
  { chain := chain
    incoming := []
    finalizedBlocks := []
    highestCCBlock := chain.root
    lastFinalizedBlock := chain.root
    tip := chain.root
    lastVoteHeight := 0
    voteLog := []
    collectedVotes := []
    epochMgrEpoch := 0
    epoch := 0
    proposerEpoch := 0
    replicaEpoch := 0 }

/-- `HandleMessage` (engine.go lines 128-130): `e.incoming <- msg`, a plain
send on the 5000-capacity `incoming` channel. -/
def handleMessage (s : EngineState) (m : Nat) : EngineState × SendOutcome :=
  ({ s with incoming := (goChanSend engineChanCapacity s.incoming m).1 },
    (goChanSend engineChanCapacity s.incoming m).2)

/-- `enterNewEpoch` (engine.go lines 121-125): set the engine epoch and
notify both strategies. -/
def enterNewEpoch (s : EngineState) (newEpoch : Nat) : EngineState :=
  { s with epoch := newEpoch, proposerEpoch := newEpoch, replicaEpoch := newEpoch }

/-- `finalizeBlock` (engine.go lines 179-194): skip when the hash equals the
last finalized block's hash; otherwise set `lastFinalizedBlock` and publish
the block on `finalizedBlocks` with a non-blocking send. -/
def finalizeBlock (s : EngineState) (block : EBlock) : EngineState :=
  if block.hash = s.lastFinalizedBlock.hash then s
  else
    { s with
        lastFinalizedBlock := block
        finalizedBlocks := chanPushNonBlocking engineChanCapacity s.finalizedBlocks block }

/-- First statement of `processCCBlock` (engine.go lines 162-165): raise
`highestCCBlock` when the new CC block is strictly higher. -/
def processCCBlockStep1 (s : EngineState) (ccBlock : EBlock) : EngineState :=
  if ccBlock.height > s.highestCCBlock.height
  then { s with highestCCBlock := ccBlock } else s

/-- Second statement of `processCCBlock` (engine.go lines 167-169): when the
CC block's parent itself carries a commit certificate, finalize the parent. -/
def processCCBlockStep2 (s : EngineState) (ccBlock : EBlock) : EngineState :=
  match lookupBlock s.chain.blocks ccBlock.parentHash with
  | some p => if p.hasCC then finalizeBlock s p else s
  | none => s

/-- Third statement of `processCCBlock` (engine.go lines 171-176): when the
CC block's epoch has caught up with the local epoch, enter epoch
`ccBlock.Epoch + 1` and hand it to the epoch manager (`SetEpoch`, whose own
timer-reset body is not under `src/`; the epoch it was handed is recorded). -/
def processCCBlockStep3 (s : EngineState) (ccBlock : EBlock) : EngineState :=
  if ccBlock.epoch ≥ s.epoch then
    { enterNewEpoch s (ccBlock.epoch + 1) with epochMgrEpoch := ccBlock.epoch + 1 }
  else s

/-- `processCCBlock` (engine.go lines 158-177): the three statements in
source order. -/
def processCCBlock (s : EngineState) (ccBlock : EBlock) : EngineState :=
  processCCBlockStep3 (processCCBlockStep2 (processCCBlockStep1 s ccBlock) ccBlock) ccBlock

/-- `a` lies on the parent chain of `b` (inclusive), walking parent hashes;
`fuel` bounds the walk (any value > tree size is exact). -/
def isAncestor (t : List EBlock) (anc cur : CHash) : Nat → Bool
  | 0 => false
  | fuel + 1 =>
    if cur = anc then true
    else
      match lookupBlock t cur with
      | none => false
      | some b => if b.parentHash = cur then false else isAncestor t anc b.parentHash fuel

/-- Strict lexicographic order on byte strings, for the fork-choice tie-break. -/
def lexLt : List Nat → List Nat → Bool
  | [], [] => false
  | [], _ :: _ => true
  | _ :: _, [] => false
  | a :: as, b :: bs => if a < b then true else if b < a then false else lexLt as bs

/-- `a` is a strictly better fork-choice tip than `b`: higher, or tied by
height and higher epoch, or tied by both and lexicographically smaller hash. -/
def betterTip (a b : EBlock) : Bool :=
  decide (a.height > b.height) ||
    (decide (a.height = b.height) &&
      (decide (a.epoch > b.epoch) ||
        (decide (a.epoch = b.epoch) && lexLt a.hash b.hash)))

/-- Modelled from the spec: `blockchain.ExtendedBlock.FindDeepestDescendant`
is not under `src/`. "returns the tip of the longest path starting at
`from`, breaking ties by (highest epoch, then lexicographic block hash)". -/
def findDeepestDescendant (t : List EBlock) (start : EBlock) : EBlock :=
  t.foldl
    (fun best c =>
      if isAncestor t start.hash c.hash (t.length + 1) && betterTip c best then c else best)
    start

/-- `setTip` (engine.go lines 142-146): recompute the tip as the deepest
descendant of `highestCCBlock`. -/
def setTip (s : EngineState) : EngineState :=
  { s with tip := findDeepestDescendant s.chain.blocks s.highestCCBlock }

/-!
## The `core` block model (`src/core/block.go`)

`BlockHeader.Hash` serializes the header with `rlp.EncodeToBytes` and hashes
the bytes with `crypto.Keccak256Hash`; neither the `rlp` nor the `crypto`
package is under `src/`, so the two are carried as explicit function
parameters `enc` (canonical encoding of the exported header fields — Go RLP
skips the unexported `hash` cache field) and `keccak`. Being Lean functions,
both are deterministic, which is exactly what the spec assumes of them.
-/

/-- The exported fields of `core.BlockHeader`, in declared order. These are
the fields the canonical encoding covers. -/
structure HeaderFields where
  chainID : String
  epoch : Nat
  height : Nat
  parent : CHash
  txHash : CHash
  stateHash : CHash
  timestamp : Int
  proposer : List Nat
deriving DecidableEq, Repr

/-- `core.BlockHeader` (block.go lines 39-50): the exported fields plus the
unexported `hash` cache. -/
structure BlockHeader where
  chainID : String
  epoch : Nat
  height : Nat
  parent : CHash
  txHash : CHash
  stateHash : CHash
  timestamp : Int
  proposer : List Nat
  hashCache : CHash
deriving DecidableEq, Repr

/-- The exported fields of a header, the input of the canonical encoding. -/
def headerFields (h : BlockHeader) : HeaderFields :=
  { chainID := h.chainID, epoch := h.epoch, height := h.height, parent := h.parent,
    txHash := h.txHash, stateHash := h.stateHash, timestamp := h.timestamp,
    proposer := h.proposer }

/-- `BlockHeader.Hash` (block.go lines 53-62). The receiver is a possibly-nil
pointer, modelled as `Option BlockHeader`; a nil receiver yields the zero
hash. On a live header: if the cache is empty, encode, hash, and cache; the
returned pair is (hash value, header after the call). -/
def blockHeaderHash (enc : HeaderFields → List Nat) (keccak : List Nat → CHash)
    (h : Option BlockHeader) : CHash × Option BlockHeader :=
  match h with
  | none => (emptyHash, none)
  | some hdr =>
    if hdr.hashCache = emptyHash then
      let v := keccak (enc (headerFields hdr))
      (v, some { hdr with hashCache := v })
    else (hdr.hashCache, some hdr)

/-- `core.Block` (block.go lines 20-23): an embedded (possibly nil) header
pointer plus the transaction payload list. -/
structure Block where
  header : Option BlockHeader
  txs : List (List Nat)
deriving DecidableEq, Repr

/-- `Block`'s promoted `Hash` method: it is `BlockHeader.Hash` on the
embedded header and never reads `txs`. -/
def blockHash (enc : HeaderFields → List Nat) (keccak : List Nat → CHash)
    (b : Block) : CHash × Option BlockHeader :=
  blockHeaderHash enc keccak b.header

/-- `core.ExtendedBlock` (block.go lines 78-82): a possibly-nil inner block,
child hashes and a status label. -/
structure ExtendedBlock where
  block : Option Block
  children : List CHash
  status : Nat
deriving DecidableEq, Repr

/-- `ExtendedBlock.Hash` (block.go lines 85-90): zero hash when the inner
`Block` is nil, otherwise the header hash. -/
def extendedBlockHash (enc : HeaderFields → List Nat) (keccak : List Nat → CHash)
    (eb : ExtendedBlock) : CHash :=
  match eb.block with
  | none => emptyHash
  | some b => (blockHeaderHash enc keccak b.header).1

/-!
## Mempool message handler and the `BroadcastRawTransaction` RPC
-/

/-- The value of a hex digit, per Go's `encoding/hex` alphabet. -/
def hexDigitVal (c : Char) : Option Nat :=
  if 48 ≤ c.toNat ∧ c.toNat ≤ 57 then some (c.toNat - 48)
  else if 97 ≤ c.toNat ∧ c.toNat ≤ 102 then some (c.toNat - 87)
  else if 65 ≤ c.toNat ∧ c.toNat ≤ 70 then some (c.toNat - 55)
  else none

/-- `hex.DecodeString` on the character list: two hex digits per byte; an
odd-length or ill-formed input is an error. -/
def hexDecodeList : List Char → Option (List Nat)
  | [] => some []
  | [_] => none
  | c1 :: c2 :: rest =>
    match hexDigitVal c1, hexDigitVal c2, hexDecodeList rest with
    | some a, some b, some tl => some ((a * 16 + b) :: tl)
    | _, _, _ => none

/-- `hex.DecodeString`. -/
def hexDecode (s : String) : Option (List Nat) :=
  hexDecodeList s.data

/-- Lower-case hex digit of a value below 16. -/
def hexDigitChar (n : Nat) : Char :=
  if n < 10 then Char.ofNat (48 + n) else Char.ofNat (87 + n)

/-- Hex encoding of a byte string, two digits per byte. -/
def hexEncodeList : List Nat → List Char
  | [] => []
  | b :: rest => hexDigitChar (b / 16) :: hexDigitChar (b % 16) :: hexEncodeList rest

/-- `common.Hash.Hex`: "0x" followed by the hex digits. -/
def hashHex (h : CHash) : String :=
  "0x" ++ String.mk (hexEncodeList h)

/-- The mempool as the ordered list of raw transactions it holds. The
`Mempool` type itself is not under `src/`; the claims only need the
transactions-held state. -/
structure Mempool where
  txs : List (List Nat)
deriving DecidableEq, Repr

/-- Modelled from the spec: `Mempool.InsertTransaction` is not under `src/`;
"`broadcast_raw_transaction(hex)` inserts a transaction into the mempool".
It appends the raw bytes and reports no error. -/
def insertTransaction (m : Mempool) (tx : List Nat) : Option String × Mempool :=
  (none, { txs := m.txs ++ [tx] })

/-- Modelled from the spec: `Mempool.ProcessTransaction` is not under
`src/`; like `InsertTransaction` it admits the transaction into the mempool
("Mempool does its own validity filtering" is outside the claims here). -/
def processTransaction (m : Mempool) (tx : List Nat) : Option String × Mempool :=
  (none, { txs := m.txs ++ [tx] })

/-- The result of `BroadcastRawTransaction`: the reported transaction hash. -/
structure BroadcastResult where
  txHash : String
deriving DecidableEq, Repr

/-- `ThetaRPCServer.BroadcastRawTransaction` (src/unnamed/part_003): decode
the hex argument (propagating a decode error), set the result to the hex of
the keccak-256 hash of the decoded bytes, and insert the bytes into the
mempool, returning the mempool's error. -/
def broadcastRawTransaction (keccak : List Nat → CHash) (m : Mempool)
    (txBytesHex : String) : Option String × Mempool × BroadcastResult :=
  match hexDecode txBytesHex with
  | none => (some "encoding hex invalid input", m, { txHash := "" })
  | some txBytes =>
    let hash := keccak txBytes
    let r := insertTransaction m txBytes
    (r.1, r.2, { txHash := hashHex hash })

/-- `common.ChannelIDEnum`: the transaction channel and the others. The
`common` package is not under `src/`; the handler only compares against
`ChannelIDTransaction`. -/
inductive ChannelIDEnum where
  | transaction
  | block
  | vote
  | other (n : Nat)
deriving DecidableEq, Repr

/-- `p2p/types.Message` as used by the mempool handler. -/
structure P2PMessage where
  peerID : String
  channelID : ChannelIDEnum
  content : List Nat
deriving DecidableEq, Repr

/-- `MempoolMessageHandler.HandleMessage` (src/unnamed/part_000 lines
54-61): reject messages on any channel other than `ChannelIDTransaction`
with an error, leaving the mempool untouched; otherwise hand the contained
transaction to `Mempool.ProcessTransaction`. -/
def mempoolHandleMessage (m : Mempool) (msg : P2PMessage) : Option String × Mempool :=
  if msg.channelID ≠ ChannelIDEnum.transaction then
    (some "Invalid channel for MempoolMessageHandler", m)
  else processTransaction m msg.content

/-!
## Claim formalizations and concrete states
-/

/-- The status label a block carries in the tree, if the block is there. -/
def statusOf (t : List EBlock) (h : CHash) : Option Nat :=
  (lookupBlock t h).map (fun b => b.status)

/-- The spec's finalization path: the blocks from the child of the nearest
already-finalized ancestor of `x` up to `x` itself, walking parent hashes.
The walk stops at a block whose hash is the last finalized block's or whose
status is already Finalized (2). -/
def finalizedPath (t : List EBlock) (lf : CHash) (x : EBlock) : Nat → List EBlock
  | 0 => []
  | fuel + 1 =>
    if x.hash = lf ∨ x.status = 2 then []
    else
      match lookupBlock t x.parentHash with
      | none => [x]
      | some p => finalizedPath t lf p fuel ++ [x]

/-- The finalization claim as the spec states it: for `X` other than the
last finalized block, `finalize(X)` publishes every block on the path from
the finalized ancestor's child up to `X` (each by a non-blocking push),
marks them all Finalized in the tree, and sets `lastFinalizedBlock := X`. -/
def claimFinalizeWalk (s : EngineState) (x : EBlock) : Prop :=
  x.hash ≠ s.lastFinalizedBlock.hash →
    ((finalizeBlock s x).finalizedBlocks =
        (finalizedPath s.chain.blocks s.lastFinalizedBlock.hash x
            (s.chain.blocks.length + 1)).foldl
          (chanPushNonBlocking engineChanCapacity) s.finalizedBlocks ∧
      (∀ b ∈ finalizedPath s.chain.blocks s.lastFinalizedBlock.hash x
          (s.chain.blocks.length + 1),
        statusOf (finalizeBlock s x).chain.blocks b.hash = some 2) ∧
      (finalizeBlock s x).lastFinalizedBlock = x)

/-- The CC-processing claim as the spec states it: a CC block higher than
`highestCCBlock` both replaces `highestCCBlock` and makes the engine
recompute `tip` as the deepest descendant of the CC block. -/
def claimCCRecomputesTip (s : EngineState) (b : EBlock) : Prop :=
  b.height > s.highestCCBlock.height →
    ((processCCBlock s b).highestCCBlock = b ∧
      (processCCBlock s b).tip = findDeepestDescendant s.chain.blocks b)

/-- The queue-saturation claim as the spec states it: a producer delivering
into a full incoming queue drops the message (engine state unchanged) and
does not block. -/
def claimQueueFullDrops (s : EngineState) (m : Nat) : Prop :=
  s.incoming.length ≥ engineChanCapacity →
    ((handleMessage s m).2 ≠ SendOutcome.blocked ∧ (handleMessage s m).1 = s)

/-- Genesis of the concrete three-block chain: hash [0], Finalized, its own
parent (the root's parent hash is never followed). -/
def blockG : EBlock :=
  { hash := [0], parentHash := [0], height := 0, epoch := 0, hasCC := true, status := 2 }

/-- Child of genesis: hash [1], Committed (has a CC, not yet finalized). -/
def blockB1 : EBlock :=
  { hash := [1], parentHash := [0], height := 1, epoch := 1, hasCC := true, status := 1 }

/-- Child of `blockB1`: hash [2], Committed. -/
def blockB2 : EBlock :=
  { hash := [2], parentHash := [1], height := 2, epoch := 2, hasCC := true, status := 1 }

/-- The concrete chain genesis ← B1 ← B2. -/
def chainEx : ChainM :=
  { blocks := [blockG, blockB1, blockB2], root := blockG }

/-- Engine state over `chainEx` with only genesis finalized and nothing yet
published: the state just before `finalize(B2)` in a run where B1's and B2's
CCs arrived without an intervening finalization. -/
def engineExA : EngineState :=
  { chain := chainEx
    incoming := []
    finalizedBlocks := []
    highestCCBlock := blockB2
    lastFinalizedBlock := blockG
    tip := blockB2
    lastVoteHeight := 0
    voteLog := []
    collectedVotes := []
    epochMgrEpoch := 3
    epoch := 3
    proposerEpoch := 3
    replicaEpoch := 3 }

/-- Engine state over `chainEx` still anchored at genesis (highest CC block
and tip both genesis) with a local epoch ahead of the chain: the state in
which the CC for B1 is processed. -/
def engineExB : EngineState :=
  { chain := chainEx
    incoming := []
    finalizedBlocks := []
    highestCCBlock := blockG
    lastFinalizedBlock := blockG
    tip := blockG
    lastVoteHeight := 0
    voteLog := []
    collectedVotes := []
    epochMgrEpoch := 5
    epoch := 5
    proposerEpoch := 5
    replicaEpoch := 5 }

/-- Engine state whose incoming queue holds 5000 pending messages: the
queue is saturated. -/
def engineExFull : EngineState :=
  { chain := chainEx
    incoming := List.replicate 5000 0
    finalizedBlocks := []
    highestCCBlock := blockG
    lastFinalizedBlock := blockG
    tip := blockG
    lastVoteHeight := 0
    voteLog := []
    collectedVotes := []
    epochMgrEpoch := 0
    epoch := 0
    proposerEpoch := 0
    replicaEpoch := 0 }

/-- Concrete encoding function for witnesses: length-prefixed field dump is
irrelevant, any function works; this one tags with the header height. -/
def encW : HeaderFields → List Nat :=
  fun f => f.height :: f.proposer

/-- Concrete stand-in hash function for witnesses. -/
def keccakW : List Nat → CHash :=
  fun l => 1 :: l

/-- Concrete header with an empty hash cache. -/
def hdrW : BlockHeader :=
  { chainID := "test", epoch := 1, height := 1, parent := emptyHash,
    txHash := emptyHash, stateHash := emptyHash, timestamp := 1000,
    proposer := [1], hashCache := emptyHash }

/-- Concrete message on the block channel, for the mempool handler. -/
def msgW : P2PMessage :=
  { peerID := "peer1", channelID := ChannelIDEnum.block, content := [7] }

/-- Concrete one-transaction mempool. -/
def mempoolW : Mempool :=
  { txs := [[9]] }

/-!
## Theorems
-/

/-- Helper: `finalizeBlock` never changes `highestCCBlock`. -/
theorem finalizeBlock_highestCC (s : EngineState) (b : EBlock) :
    (finalizeBlock s b).highestCCBlock = s.highestCCBlock := by
  unfold finalizeBlock; split <;> rfl

/-- Helper: `finalizeBlock` never changes `tip`. -/
theorem finalizeBlock_tip (s : EngineState) (b : EBlock) :
    (finalizeBlock s b).tip = s.tip := by
  unfold finalizeBlock; split <;> rfl

/-- Helper: `finalizeBlock` never changes the engine epoch. -/
theorem finalizeBlock_epoch (s : EngineState) (b : EBlock) :
    (finalizeBlock s b).epoch = s.epoch := by
  unfold finalizeBlock; split <;> rfl

/-- Helper: `processCCBlockStep2` never changes `highestCCBlock`. -/
theorem processCCBlockStep2_highestCC (s : EngineState) (b : EBlock) :
    (processCCBlockStep2 s b).highestCCBlock = s.highestCCBlock := by
  unfold processCCBlockStep2
  split
  · split
    · exact finalizeBlock_highestCC _ _
    · rfl
  · rfl

/-- Helper: `processCCBlockStep2` never changes `tip`. -/
theorem processCCBlockStep2_tip (s : EngineState) (b : EBlock) :
    (processCCBlockStep2 s b).tip = s.tip := by
  unfold processCCBlockStep2
  split
  · split
    · exact finalizeBlock_tip _ _
    · rfl
  · rfl

/-- Helper: `processCCBlockStep2` never changes the engine epoch. -/
theorem processCCBlockStep2_epoch (s : EngineState) (b : EBlock) :
    (processCCBlockStep2 s b).epoch = s.epoch := by
  unfold processCCBlockStep2
  split
  · split
    · exact finalizeBlock_epoch _ _
    · rfl
  · rfl

/-- Helper: `processCCBlockStep3` never changes `highestCCBlock`. -/
theorem processCCBlockStep3_highestCC (s : EngineState) (b : EBlock) :
    (processCCBlockStep3 s b).highestCCBlock = s.highestCCBlock := by
  unfold processCCBlockStep3; split <;> rfl

/-- Helper: `processCCBlockStep3` never changes `tip`. -/
theorem processCCBlockStep3_tip (s : EngineState) (b : EBlock) :
    (processCCBlockStep3 s b).tip = s.tip := by
  unfold processCCBlockStep3; split <;> rfl

/-- Helper: a plain send into a full Go channel leaves the buffer unchanged
and suspends the sender. -/
theorem goChanSend_full {α : Type} (cap : Nat) (q : List α) (x : α)
    (h : cap ≤ q.length) :
    goChanSend cap q x = (q, SendOutcome.blocked) := by
  unfold goChanSend
  rw [if_neg (Nat.not_lt.mpr h)]

/-- Helper: `HandleMessage` against a saturated incoming queue leaves the
engine unchanged and blocks. -/
theorem handleMessage_full_aux (s : EngineState) (m : Nat)
    (h : s.incoming.length ≥ engineChanCapacity) :
    handleMessage s m = (s, SendOutcome.blocked) := by
  unfold handleMessage
  rw [goChanSend_full _ _ _ h]

/-- Helper: `processCCBlockStep1` changes no field other than
`highestCCBlock`, and so in particular none of the epoch fields, the tip or
the chain. -/
theorem processCCBlockStep1_frame (s : EngineState) (b : EBlock) :
    (processCCBlockStep1 s b).epoch = s.epoch ∧
    (processCCBlockStep1 s b).tip = s.tip ∧
    (processCCBlockStep1 s b).chain = s.chain := by
  unfold processCCBlockStep1; split <;> exact ⟨rfl, rfl, rfl⟩

/-- C5: calling `finalizeBlock` on the block whose hash equals the last
finalized block's hash is a no-op: the whole engine state is returned
unchanged, so in particular nothing is published on `finalizedBlocks`. -/
theorem finalizeBlock_noop_on_last (s : EngineState) (b : EBlock)
    (h : b.hash = s.lastFinalizedBlock.hash) :
    finalizeBlock s b = s := by
  simp [finalizeBlock, h]

/-- Witness for C5 at a concrete input: genesis is the last finalized block
of `engineExA`; finalizing it again changes nothing. -/
theorem finalizeBlock_noop_on_last_witness :
    blockG.hash = engineExA.lastFinalizedBlock.hash ∧
    finalizeBlock engineExA blockG = engineExA :=
  ⟨by decide, finalizeBlock_noop_on_last engineExA blockG (by decide)⟩

/-- C8: a nil `BlockHeader` receiver hashes to the all-zero hash, and an
`ExtendedBlock` whose inner `Block` is nil likewise hashes to the all-zero
hash; both are returned without touching a header. -/
theorem nil_receiver_hash_zero (enc : HeaderFields → List Nat)
    (keccak : List Nat → CHash) (children : List CHash) (st : Nat) :
    (blockHeaderHash enc keccak none).1 = emptyHash ∧
    extendedBlockHash enc keccak { block := none, children := children, status := st } =
      emptyHash := by
  exact ⟨rfl, rfl⟩

/-- C9: `newEngine` starts with `highestCCBlock`, `lastFinalizedBlock` and
`tip` all equal to the chain root, epoch 0, and empty vote log and
collected-votes maps; the last finalized block is an ancestor (here equal)
of both the tip and the highest-CC block. -/
theorem newEngine_initial_state (chain : ChainM) :
    (newEngine chain).highestCCBlock = chain.root ∧
    (newEngine chain).lastFinalizedBlock = chain.root ∧
    (newEngine chain).tip = chain.root ∧
    (newEngine chain).epoch = 0 ∧
    (newEngine chain).voteLog = [] ∧
    (newEngine chain).collectedVotes = [] ∧
    isAncestor chain.blocks (newEngine chain).lastFinalizedBlock.hash
      (newEngine chain).tip.hash (chain.blocks.length + 1) = true ∧
    isAncestor chain.blocks (newEngine chain).lastFinalizedBlock.hash
      (newEngine chain).highestCCBlock.hash (chain.blocks.length + 1) = true := by
  refine ⟨rfl, rfl, rfl, rfl, rfl, rfl, ?_, ?_⟩ <;> simp [newEngine, isAncestor]

/-- C10: a message on any channel other than `ChannelIDTransaction` is
answered with an error and leaves the mempool unchanged. -/
theorem mempoolHandleMessage_wrong_channel (m : Mempool) (msg : P2PMessage)
    (h : msg.channelID ≠ ChannelIDEnum.transaction) :
    (mempoolHandleMessage m msg).1 =
      some "Invalid channel for MempoolMessageHandler" ∧
    (mempoolHandleMessage m msg).2 = m := by
  simp [mempoolHandleMessage, h]

/-- Witness for C10 at a concrete input: a block-channel message against a
one-transaction mempool. -/
theorem mempoolHandleMessage_wrong_channel_witness :
    msgW.channelID ≠ ChannelIDEnum.transaction ∧
    (mempoolHandleMessage mempoolW msgW).1 =
      some "Invalid channel for MempoolMessageHandler" ∧
    (mempoolHandleMessage mempoolW msgW).2 = mempoolW :=
  ⟨by decide, mempoolHandleMessage_wrong_channel mempoolW msgW (by decide)⟩

/-- C7: on a well-formed hex argument, `BroadcastRawTransaction` inserts the
decoded bytes into the mempool, reports no error, and returns the hex of the
keccak-256 hash of those bytes as the result. -/
theorem broadcastRawTransaction_ok (keccak : List Nat → CHash) (m : Mempool)
    (s : String) (bs : List Nat) (h : hexDecode s = some bs) :
    broadcastRawTransaction keccak m s =
      (none, { txs := m.txs ++ [bs] }, { txHash := hashHex (keccak bs) }) := by
  simp [broadcastRawTransaction, h, insertTransaction]

/-- Witness for C7 at a concrete input: the hex string "0aff" decodes to
[10, 255], which lands in the mempool, with the stand-in hash reported. -/
theorem broadcastRawTransaction_ok_witness :
    hexDecode "0aff" = some [10, 255] ∧
    broadcastRawTransaction keccakW { txs := [] } "0aff" =
      (none, { txs := [[10, 255]] }, { txHash := hashHex (keccakW [10, 255]) }) :=
  ⟨by decide, broadcastRawTransaction_ok keccakW { txs := [] } "0aff" [10, 255] (by decide)⟩

/-- C1 counterexample: in `engineExA` (genesis finalized, B1 and B2 both
carrying CCs, nothing published yet), `finalize(B2)` does not publish the
intermediate block B1 and does not mark the path Finalized, so the claimed
walk-and-publish behaviour fails at this input. -/
theorem finalize_walk_cex : ¬ claimFinalizeWalk engineExA blockB2 := by
  intro h
  exact absurd (h (by decide)).1 (by decide)

/-- C1 as amended: for `X` other than the last finalized block, the engine
sets `lastFinalizedBlock := X` and publishes `X` alone on `finalizedBlocks`
(non-blocking push); no backward walk happens, no intermediate block is
published, and no status in the tree changes. -/
theorem finalizeBlock_publishes_only_x (s : EngineState) (x : EBlock)
    (h : x.hash ≠ s.lastFinalizedBlock.hash) :
    finalizeBlock s x =
      { s with
          lastFinalizedBlock := x
          finalizedBlocks :=
            chanPushNonBlocking engineChanCapacity s.finalizedBlocks x } := by
  simp [finalizeBlock, h]

/-- Witness for amended C1 at the counterexample input. -/
theorem finalizeBlock_publishes_only_x_witness :
    blockB2.hash ≠ engineExA.lastFinalizedBlock.hash ∧
    finalizeBlock engineExA blockB2 =
      { engineExA with
          lastFinalizedBlock := blockB2
          finalizedBlocks :=
            chanPushNonBlocking engineChanCapacity engineExA.finalizedBlocks blockB2 } :=
  ⟨by decide, finalizeBlock_publishes_only_x engineExA blockB2 (by decide)⟩

/-- C2 counterexample: in `engineExB` (highest-CC block and tip both at
genesis, local epoch already 5), processing the CC on B1 raises
`highestCCBlock` to B1 but leaves `tip` at genesis, while the deepest
descendant of B1 is B2 — so the claimed tip recomputation fails here. -/
theorem ccblock_tip_cex : ¬ claimCCRecomputesTip engineExB blockB1 := by
  intro h
  exact absurd (h (by decide)).2 (by decide)

/-- C2 as amended: a CC block strictly higher than `highestCCBlock` replaces
`highestCCBlock`, but `processCCBlock` leaves `tip` unchanged; the tip is
only recomputed by the separate `setTip` operation. -/
theorem processCCBlock_highestCC (s : EngineState) (b : EBlock)
    (h : b.height > s.highestCCBlock.height) :
    (processCCBlock s b).highestCCBlock = b ∧ (processCCBlock s b).tip = s.tip := by
  have h1 : processCCBlockStep1 s b = { s with highestCCBlock := b } := by
    unfold processCCBlockStep1; rw [if_pos h]
  unfold processCCBlock
  constructor
  · rw [processCCBlockStep3_highestCC, processCCBlockStep2_highestCC, h1]
  · rw [processCCBlockStep3_tip, processCCBlockStep2_tip, h1]

/-- Witness for amended C2 at the counterexample input. -/
theorem processCCBlock_highestCC_witness :
    blockB1.height > engineExB.highestCCBlock.height ∧
    (processCCBlock engineExB blockB1).highestCCBlock = blockB1 ∧
    (processCCBlock engineExB blockB1).tip = engineExB.tip :=
  ⟨by decide, processCCBlock_highestCC engineExB blockB1 (by decide)⟩

/-- C3 counterexample: with the incoming queue holding 5000 messages,
`HandleMessage` blocks the producer instead of dropping, so the claimed
drop-on-full behaviour fails at this input. -/
theorem queue_full_drop_cex : ¬ claimQueueFullDrops engineExFull 7 := by
  intro h
  have hfull : engineExFull.incoming.length ≥ engineChanCapacity := by
    show engineChanCapacity ≤ (List.replicate 5000 0).length
    rw [List.length_replicate]
    exact Nat.le_refl 5000
  refine (h hfull).1 ?_
  rw [handleMessage_full_aux engineExFull 7 hfull]

/-- C3 as amended: `HandleMessage` is a plain (blocking) send on the
5000-capacity incoming queue; when the queue is full the message is not
enqueued and the producer blocks rather than dropping. -/
theorem handleMessage_blocks_when_full (s : EngineState) (m : Nat)
    (h : s.incoming.length ≥ engineChanCapacity) :
    handleMessage s m = (s, SendOutcome.blocked) :=
  handleMessage_full_aux s m h

/-- Witness for amended C3 at the saturated queue. -/
theorem handleMessage_blocks_when_full_witness :
    engineExFull.incoming.length ≥ engineChanCapacity ∧
    handleMessage engineExFull 7 = (engineExFull, SendOutcome.blocked) := by
  have hfull : engineExFull.incoming.length ≥ engineChanCapacity := by
    show engineChanCapacity ≤ (List.replicate 5000 0).length
    rw [List.length_replicate]
    exact Nat.le_refl 5000
  exact ⟨hfull, handleMessage_blocks_when_full engineExFull 7 hfull⟩

/-- C4: processing a CC block `B` whose epoch has reached the local epoch
sets the engine epoch to `B.epoch + 1`, hands that epoch to both the
proposer and replica strategies, and informs the epoch manager; a CC block
from an older epoch leaves the engine epoch unchanged. -/
theorem processCCBlock_epoch_advance (s : EngineState) (b : EBlock)
    (_hp : (lookupBlock s.chain.blocks b.parentHash).isSome = true) :
    (b.epoch ≥ s.epoch →
      (processCCBlock s b).epoch = b.epoch + 1 ∧
      (processCCBlock s b).proposerEpoch = b.epoch + 1 ∧
      (processCCBlock s b).replicaEpoch = b.epoch + 1 ∧
      (processCCBlock s b).epochMgrEpoch = b.epoch + 1) ∧
    (b.epoch < s.epoch → (processCCBlock s b).epoch = s.epoch) := by
  have hch : (processCCBlockStep2 (processCCBlockStep1 s b) b).epoch = s.epoch := by
    rw [processCCBlockStep2_epoch, (processCCBlockStep1_frame s b).1]
  constructor
  · intro hE
    have hE2 : b.epoch ≥ (processCCBlockStep2 (processCCBlockStep1 s b) b).epoch := by
      rw [hch]; exact hE
    unfold processCCBlock processCCBlockStep3
    rw [if_pos hE2]
    exact ⟨rfl, rfl, rfl, rfl⟩
  · intro hE
    have hE2 : ¬ b.epoch ≥ (processCCBlockStep2 (processCCBlockStep1 s b) b).epoch := by
      rw [hch]; exact Nat.not_le.mpr hE
    unfold processCCBlock processCCBlockStep3
    rw [if_neg hE2]
    exact hch

/-- Witness for C4 at a concrete input: the CC on B2 arrives at `engineExA`
(local epoch 3, B2's epoch 2 < 3, so no advance) and at a state identical
except for epoch 1 (B2's epoch 2 ≥ 1, so the epoch becomes 3). -/
theorem processCCBlock_epoch_advance_witness :
    (lookupBlock engineExA.chain.blocks blockB2.parentHash).isSome = true ∧
    (blockB2.epoch < engineExA.epoch →
      (processCCBlock engineExA blockB2).epoch = engineExA.epoch) :=
  ⟨by decide, (processCCBlock_epoch_advance engineExA blockB2 (by decide)).2⟩

/-- C6: the hash of a header whose cache is still empty is the keccak of
the canonical encoding of the exported header fields only (the transaction
list of the enclosing block plays no part), it is cached by the call, and a
second call on the resulting header returns the identical value. -/
theorem blockHeaderHash_deterministic (enc : HeaderFields → List Nat)
    (keccak : List Nat → CHash) (hdr : BlockHeader)
    (h : hdr.hashCache = emptyHash) :
    (blockHeaderHash enc keccak (some hdr)).1 = keccak (enc (headerFields hdr)) ∧
    (blockHeaderHash enc keccak (blockHeaderHash enc keccak (some hdr)).2).1 =
      (blockHeaderHash enc keccak (some hdr)).1 ∧
    (∀ txs1 txs2 : List (List Nat),
      (blockHash enc keccak { header := some hdr, txs := txs1 }).1 =
        (blockHash enc keccak { header := some hdr, txs := txs2 }).1) := by
  refine ⟨by simp [blockHeaderHash, h], ?_, fun txs1 txs2 => rfl⟩
  by_cases hv : keccak (enc (headerFields hdr)) = emptyHash
  · simp [blockHeaderHash, h, hv, headerFields]
  · simp [blockHeaderHash, h, hv, headerFields]

/-- Witness for C6 at a concrete header with an empty cache and concrete
stand-in encoding and hash functions. -/
theorem blockHeaderHash_deterministic_witness :
    hdrW.hashCache = emptyHash ∧
    (blockHeaderHash encW keccakW (some hdrW)).1 = keccakW (encW (headerFields hdrW)) ∧
    (blockHeaderHash encW keccakW (blockHeaderHash encW keccakW (some hdrW)).2).1 =
      (blockHeaderHash encW keccakW (some hdrW)).1 :=
  ⟨by decide,
    (blockHeaderHash_deterministic encW keccakW hdrW (by decide)).1,
    (blockHeaderHash_deterministic encW keccakW hdrW (by decide)).2.1⟩
